import Mathlib

/-!
Shallow embedding of `wireshark/pcap_decode.py`: decoding of 20-byte RC
control frames from UDP payloads, classification of frames into event
labels, debounced counting of events, and the report ordering of counts.

Bytes are modelled as `Nat` (Python bytes are ints in 0..255), payloads as
`List Nat`, packet timestamps and the debounce window as `ℚ` (Python floats
used only for subtraction and comparison here), Python dicts as insertion
ordered association lists.
-/

/-- Neutral stick position (`NEUTRAL = 0x80` in the source). -/
def NEUTRAL : Int := 0x80

/-- Low nibble of `n` as a lowercase hex character, as Python `%x` renders it. -/
def hexDigit (n : Nat) : Char := Nat.digitChar (n % 16)

/-- Two-digit lowercase hex rendering of a byte, as Python `f"{n:02x}"` for n < 256. -/
def hex2 (n : Nat) : String := String.mk [hexDigit (n / 16), hexDigit n]

/-- The `COMMANDS` dict of the source, as a finite partial map on the command byte. -/
def COMMANDS (cmd : Nat) : Option String :=
  match cmd with
  | 0x00 => some "none"
  | 0x01 => some "takeoff"
  | 0x02 => some "emergency_stop"
  | 0x03 => some "land"
  | 0x04 => some "calibrate_gyro"
  | _ => none

/-- The `RCFrame` dataclass. Field order: ts, roll, pitch, throttle, yaw, cmd, headless, raw. -/
structure RCFrame where
  ts : ℚ
  roll : Nat
  pitch : Nat
  throttle : Nat
  yaw : Nat
  cmd : Nat
  headless : Nat
  raw : List Nat
deriving DecidableEq

/-- Source `is_candidate_rc_frame`: length 20, first byte 0x66, last byte 0x99.
The `getD` defaults are never reached when the length test succeeds. -/
def is_candidate_rc_frame (payload : List Nat) : Bool :=
  payload.length == 20 && payload.getD 0 0 == 0x66 && payload.getLast?.getD 0 == 0x99

/-- Source `parse_rc_frame`: reject non-candidates, otherwise read the fixed
byte offsets 2..7 and keep the whole payload as `raw`. -/
def parse_rc_frame (ts : ℚ) (payload : List Nat) : Option RCFrame :=
  if ¬ is_candidate_rc_frame payload then none
  else some ⟨ts, payload.getD 2 0, payload.getD 3 0, payload.getD 4 0,
             payload.getD 5 0, payload.getD 6 0, payload.getD 7 0, payload⟩

/-- Source `classify_axis`: deadband test around the neutral value, then sign of delta. -/
def classify_axis (value neutral deadband : Int) (pos_label neg_label : String) : Option String :=
  let delta := value - neutral
  if |delta| ≤ deadband then none
  else if delta > 0 then some pos_label else some neg_label

/-- Command block of `infer_event` (lines 104-107): a recognized command other
than `"none"` emits its name; any other non-zero byte emits `cmd_0xNN`. -/
def cmdEvents (cmd : Nat) : List String :=
  match COMMANDS cmd with
  | some name => if name ≠ "none" then [name]
                 else if cmd ≠ 0x00 then ["cmd_0x" ++ hex2 cmd] else []
  | none => if cmd ≠ 0x00 then ["cmd_0x" ++ hex2 cmd] else []

/-- Axis block of `infer_event` (lines 110-117): the four axis labels in the
fixed order pitch, roll, throttle, yaw, keeping only those that fired
(the Python `if e:` test; axis labels are never empty strings). -/
def axisEvents (frame : RCFrame) (deadband : Int) : List String :=
  let pitch_evt := classify_axis frame.pitch NEUTRAL deadband "forward" "back"
  let roll_evt := classify_axis frame.roll NEUTRAL deadband "right" "left"
  let thr_evt := classify_axis frame.throttle NEUTRAL deadband "up" "down"
  let yaw_evt := classify_axis frame.yaw NEUTRAL deadband "yaw_right" "yaw_left"
  [pitch_evt, roll_evt, thr_evt, yaw_evt].filterMap id

/-- Headless block of `infer_event` (lines 120-126): a value outside the
recognized set `(0x00, 0x02, 0x03)` emits `headless_0xNN`; 0x03 and 0x02
emit the named labels; 0x00 falls through all branches and emits nothing. -/
def headlessEvents (headless : Nat) : List String :=
  if ¬ (headless = 0x00 ∨ headless = 0x02 ∨ headless = 0x03) then
    ["headless_0x" ++ hex2 headless]
  else if headless = 0x03 then ["headless_on"]
  else if headless = 0x02 then ["headless_off"]
  else []

/-- Source `infer_event`: the `events` list is built by appending the command
labels, then the axis labels, then the headless labels, in that order. -/
def infer_event (frame : RCFrame) (deadband : Int) : List String :=
  cmdEvents frame.cmd ++ axisEvents frame deadband ++ headlessEvents frame.headless

/-- Lookup in an insertion-ordered association list (Python `d.get(k)` / `d[k]`). -/
def dictGet? : List (String × α) → String → Option α
  | [], _ => none
  | p :: rest, k => if p.1 = k then some p.2 else dictGet? rest k

/-- Update in an insertion-ordered association list (Python `d[k] = v`):
overwrite the first binding of `k` in place, or append a new binding. -/
def dictSet : List (String × α) → String → α → List (String × α)
  | [], k, v => [(k, v)]
  | p :: rest, k, v => if p.1 = k then (k, v) :: rest else p :: dictSet rest k v

/-- State of the `debounce_and_count` loop: the `counts` and `last_seen` dicts. -/
def DState : Type := List (String × Nat) × List (String × ℚ)

/-- Loop body of `debounce_and_count`: count the event and record its time
when the label is unseen or the elapsed time reaches the debounce window,
otherwise leave both dicts unchanged. -/
def debounceStep (debounce_s : ℚ) (st : DState) (ev : ℚ × String) : DState :=
  let prev := dictGet? st.2 ev.2
  if (match prev with
      | none => true
      | some p => decide (ev.1 - p ≥ debounce_s)) then
    (dictSet st.1 ev.2 ((dictGet? st.1 ev.2).getD 0 + 1), dictSet st.2 ev.2 ev.1)
  else st

/-- The `debounce_and_count` loop run from given initial dicts. -/
def debounceRun (events_over_time : List (ℚ × String)) (debounce_s : ℚ) : DState :=
  events_over_time.foldl (debounceStep debounce_s) (([], []) : DState)

/-- Source `debounce_and_count`: fold the loop body over the event stream
starting from empty dicts and return the `counts` dict. -/
def debounce_and_count (events_over_time : List (ℚ × String)) (debounce_s : ℚ) :
    List (String × Nat) :=
  (debounceRun events_over_time debounce_s).1

/-- The `preferred_order` list of `main`. -/
def preferred_order : List String :=
  ["takeoff", "land", "emergency_stop", "calibrate_gyro",
   "forward", "back", "left", "right", "up", "down", "yaw_left", "yaw_right",
   "headless_on", "headless_off"]

/-- Report stage of `main` (lines 224-240): first the preferred labels present
in `counts`, in preferred order, accumulating them in `printed`; then the
remaining keys of `counts` in sorted order. Each line is (label, count). -/
def reportLines (counts : List (String × Nat)) : List (String × Nat) :=
  let printed := preferred_order.filter (fun k => (dictGet? counts k).isSome)
  let first := preferred_order.filterMap (fun k => (dictGet? counts k).map (fun v => (k, v)))
  let sortedKeys := List.insertionSort (· ≤ ·) (counts.map Prod.fst)
  let rest := sortedKeys.filter (fun k => ¬ k ∈ printed)
  first ++ rest.map (fun k => (k, (dictGet? counts k).getD 0))

/-- Bounds-checked refinement of `parse_rc_frame`, stated from the claim: every
byte index the parser touches (0, 2..7, 19) is read through a checked access
that yields `none` when out of bounds, after the length test. -/
def parse_rc_frame_checked (ts : ℚ) (payload : List Nat) : Option RCFrame :=
  if payload.length = 20 then
    match payload[0]?, payload[2]?, payload[3]?, payload[4]?,
          payload[5]?, payload[6]?, payload[7]?, payload[19]? with
    | some b0, some r, some p, some t, some y, some c, some h, some b19 =>
        if b0 = 0x66 ∧ b19 = 0x99 then some ⟨ts, r, p, t, y, c, h, payload⟩ else none
    | _, _, _, _, _, _, _, _ => none
  else none

/-! ### Helper lemmas about the parser -/

lemma getElem?_of_length_20 (payload : List Nat) (h : payload.length = 20) (i : Nat)
    (hi : i < 20) : payload[i]? = some (payload.getD i 0) := by
  rw [List.getD_eq_getElem?_getD]
  have h2 : i < payload.length := by omega
  rw [List.getElem?_eq_getElem h2]
  rfl

lemma is_candidate_rc_frame_iff (payload : List Nat) :
    is_candidate_rc_frame payload = true ↔
      payload.length = 20 ∧ payload[0]? = some 0x66 ∧ payload[19]? = some 0x99 := by
  simp only [is_candidate_rc_frame, Bool.and_eq_true, beq_iff_eq]
  constructor
  · rintro ⟨⟨h1, h2⟩, h3⟩
    refine ⟨h1, ?_, ?_⟩
    · rw [getElem?_of_length_20 payload h1 0 (by omega), h2]
    · rw [List.getLast?_eq_getElem?, h1] at h3
      have h4 : payload[19]?.getD 0 = 0x99 := h3
      rw [getElem?_of_length_20 payload h1 19 (by omega)] at h4 ⊢
      rw [Option.getD_some] at h4
      rw [h4]
  · rintro ⟨h1, h2, h3⟩
    refine ⟨⟨h1, ?_⟩, ?_⟩
    · rw [getElem?_of_length_20 payload h1 0 (by omega)] at h2
      exact Option.some.inj h2
    · rw [List.getLast?_eq_getElem?, h1]
      have h4 : payload[19]?.getD 0 = 0x99 := by rw [h3]; rfl
      exact h4

lemma parse_rc_frame_none_iff (ts : ℚ) (payload : List Nat) :
    parse_rc_frame ts payload = none ↔ ¬ (is_candidate_rc_frame payload = true) := by
  unfold parse_rc_frame
  split <;> simp_all

lemma parse_rc_frame_some_iff (ts : ℚ) (payload : List Nat) (f : RCFrame) :
    parse_rc_frame ts payload = some f ↔
      is_candidate_rc_frame payload = true ∧
      f = ⟨ts, payload.getD 2 0, payload.getD 3 0, payload.getD 4 0,
           payload.getD 5 0, payload.getD 6 0, payload.getD 7 0, payload⟩ := by
  unfold parse_rc_frame
  split <;> rename_i hc
  · simp [hc]
  · rw [not_not] at hc
    simp [hc, eq_comm]

/-- C2: parsing rejects a payload exactly when the length is not 20, the first
byte is not 0x66, or byte 19 is not 0x99; overwriting the checksum byte at
index 18 never changes whether a payload is rejected. -/
theorem C2_reject_iff_markers (ts : ℚ) (payload : List Nat) :
    (parse_rc_frame ts payload = none ↔
      payload.length ≠ 20 ∨ payload[0]? ≠ some 0x66 ∨ payload[19]? ≠ some 0x99) ∧
    (∀ b : Nat, parse_rc_frame ts (payload.set 18 b) = none ↔
      parse_rc_frame ts payload = none) := by
  constructor
  · rw [parse_rc_frame_none_iff, is_candidate_rc_frame_iff]
    tauto
  · intro b
    rw [parse_rc_frame_none_iff, parse_rc_frame_none_iff,
        is_candidate_rc_frame_iff, is_candidate_rc_frame_iff]
    have hlen : (payload.set 18 b).length = payload.length := by simp
    have h0 : (payload.set 18 b)[0]? = payload[0]? := List.getElem?_set_ne (by omega)
    have h19 : (payload.set 18 b)[19]? = payload[19]? := List.getElem?_set_ne (by omega)
    rw [hlen, h0, h19]

/-- C3: on success the frame's fields are the payload bytes at indices 2..7,
`raw` is the whole payload and `ts` the given timestamp; the frame determines
the payload (injectivity on valid payloads via `raw`). -/
theorem C3_fields_and_injective (ts : ℚ) (payload : List Nat) (f : RCFrame)
    (h : parse_rc_frame ts payload = some f) :
    payload[2]? = some f.roll ∧ payload[3]? = some f.pitch ∧
    payload[4]? = some f.throttle ∧ payload[5]? = some f.yaw ∧
    payload[6]? = some f.cmd ∧ payload[7]? = some f.headless ∧
    f.raw = payload ∧ f.ts = ts ∧
    ∀ (ts2 : ℚ) (payload2 : List Nat),
      parse_rc_frame ts2 payload2 = some f → payload2 = payload := by
  rw [parse_rc_frame_some_iff] at h
  obtain ⟨hc, hf⟩ := h
  have hlen : payload.length = 20 := ((is_candidate_rc_frame_iff payload).mp hc).1
  subst hf
  refine ⟨?_, ?_, ?_, ?_, ?_, ?_, rfl, rfl, ?_⟩
  · exact getElem?_of_length_20 payload hlen 2 (by omega)
  · exact getElem?_of_length_20 payload hlen 3 (by omega)
  · exact getElem?_of_length_20 payload hlen 4 (by omega)
  · exact getElem?_of_length_20 payload hlen 5 (by omega)
  · exact getElem?_of_length_20 payload hlen 6 (by omega)
  · exact getElem?_of_length_20 payload hlen 7 (by omega)
  · intro ts2 payload2 h2
    rw [parse_rc_frame_some_iff] at h2
    exact congrArg RCFrame.raw h2.2.symm

/-- Witness for C3 at a concrete valid payload. -/
theorem C3_fields_and_injective_witness :
    ([0x66, 0, 16, 17, 18, 19, 1, 3, 0, 0, 0, 0, 0, 0, 0, 0, 0, 0, 0x55, 0x99] :
      List Nat)[2]? = some 16 := by
  have h := C3_fields_and_injective 0
    [0x66, 0, 16, 17, 18, 19, 1, 3, 0, 0, 0, 0, 0, 0, 0, 0, 0, 0, 0x55, 0x99]
    ⟨0, 16, 17, 18, 19, 1, 3,
     [0x66, 0, 16, 17, 18, 19, 1, 3, 0, 0, 0, 0, 0, 0, 0, 0, 0, 0, 0x55, 0x99]⟩
    (by decide)
  exact h.1

lemma parse_checked_at_20 (ts : ℚ) (payload : List Nat) (hl : payload.length = 20) :
    parse_rc_frame_checked ts payload =
      if payload.getD 0 0 = 0x66 ∧ payload.getD 19 0 = 0x99 then
        some ⟨ts, payload.getD 2 0, payload.getD 3 0, payload.getD 4 0,
              payload.getD 5 0, payload.getD 6 0, payload.getD 7 0, payload⟩
      else none := by
  unfold parse_rc_frame_checked
  rw [if_pos hl,
      getElem?_of_length_20 payload hl 0 (by omega),
      getElem?_of_length_20 payload hl 2 (by omega),
      getElem?_of_length_20 payload hl 3 (by omega),
      getElem?_of_length_20 payload hl 4 (by omega),
      getElem?_of_length_20 payload hl 5 (by omega),
      getElem?_of_length_20 payload hl 6 (by omega),
      getElem?_of_length_20 payload hl 7 (by omega),
      getElem?_of_length_20 payload hl 19 (by omega)]

/-- C10: the parser is total and in-bounds safe — it agrees everywhere with the
bounds-checked variant whose every index access is guarded, and it returns a
frame exactly when the candidate test passes (and `none` otherwise). -/
theorem C10_parser_total_safe (ts : ℚ) (payload : List Nat) :
    parse_rc_frame_checked ts payload = parse_rc_frame ts payload ∧
    (parse_rc_frame ts payload).isSome = is_candidate_rc_frame payload := by
  have hB : (parse_rc_frame ts payload).isSome = is_candidate_rc_frame payload := by
    by_cases hc : is_candidate_rc_frame payload = true
    · rw [(parse_rc_frame_some_iff ts payload _).mpr ⟨hc, rfl⟩, hc]
      rfl
    · rw [(parse_rc_frame_none_iff ts payload).mpr hc, Bool.eq_false_iff.mpr hc]
      rfl
  refine ⟨?_, hB⟩
  by_cases hl : payload.length = 20
  · rw [parse_checked_at_20 ts payload hl]
    have e0 := getElem?_of_length_20 payload hl 0 (by omega)
    have e19 := getElem?_of_length_20 payload hl 19 (by omega)
    by_cases h0 : payload.getD 0 0 = 0x66
    · by_cases h19 : payload.getD 19 0 = 0x99
      · have hc : is_candidate_rc_frame payload = true :=
          (is_candidate_rc_frame_iff payload).mpr
            ⟨hl, by rw [e0, h0], by rw [e19, h19]⟩
        rw [if_pos ⟨h0, h19⟩, (parse_rc_frame_some_iff ts payload _).mpr ⟨hc, rfl⟩]
      · rw [if_neg (by tauto),
            (parse_rc_frame_none_iff ts payload).mpr (fun hc => by
              obtain ⟨-, -, h3⟩ := (is_candidate_rc_frame_iff payload).mp hc
              rw [e19] at h3
              exact h19 (Option.some.inj h3))]
    · rw [if_neg (by tauto),
          (parse_rc_frame_none_iff ts payload).mpr (fun hc => by
            obtain ⟨-, h2, -⟩ := (is_candidate_rc_frame_iff payload).mp hc
            rw [e0] at h2
            exact h0 (Option.some.inj h2))]
  · have hcheck : parse_rc_frame_checked ts payload = none := by
      unfold parse_rc_frame_checked
      rw [if_neg hl]
    rw [hcheck, (parse_rc_frame_none_iff ts payload).mpr (fun hc =>
      hl ((is_candidate_rc_frame_iff payload).mp hc).1)]

/-! ### Helper lemmas about classification -/

lemma hNEUTRAL : NEUTRAL = (128 : Int) := rfl

lemma filterMap_id_four (a b c d : Option String) :
    [a, b, c, d].filterMap id = a.toList ++ b.toList ++ c.toList ++ d.toList := by
  cases a <;> cases b <;> cases c <;> cases d <;> rfl

lemma cmdEvents_eq (cmd : Nat) :
    cmdEvents cmd =
      if cmd = 0 then []
      else if cmd = 1 then ["takeoff"]
      else if cmd = 2 then ["emergency_stop"]
      else if cmd = 3 then ["land"]
      else if cmd = 4 then ["calibrate_gyro"]
      else ["cmd_0x" ++ hex2 cmd] := by
  match cmd with
  | 0 => rfl
  | 1 => rfl
  | 2 => rfl
  | 3 => rfl
  | 4 => rfl
  | (n + 5) =>
    have h : COMMANDS (n + 5) = none := rfl
    unfold cmdEvents
    rw [h, if_pos (by omega : n + 5 ≠ 0), if_neg (by omega : ¬ n + 5 = 0),
        if_neg (by omega : ¬ n + 5 = 1), if_neg (by omega : ¬ n + 5 = 2),
        if_neg (by omega : ¬ n + 5 = 3), if_neg (by omega : ¬ n + 5 = 4)]

lemma headlessEvents_eq (h : Nat) :
    headlessEvents h =
      if h = 0x03 then ["headless_on"]
      else if h = 0x02 then ["headless_off"]
      else if h = 0x00 then []
      else ["headless_0x" ++ hex2 h] := by
  unfold headlessEvents
  by_cases h0 : h = 0 <;> by_cases h2 : h = 2 <;> by_cases h3 : h = 3 <;> simp_all

lemma classify_axis_none (v deadband : Int) (pos neg : String)
    (h : |v - NEUTRAL| ≤ deadband) :
    classify_axis v NEUTRAL deadband pos neg = none := by
  unfold classify_axis
  rw [if_pos h]

lemma classify_axis_pos (v deadband : Int) (pos neg : String)
    (h : deadband < v - NEUTRAL) (hdb : 0 ≤ deadband) :
    classify_axis v NEUTRAL deadband pos neg = some pos := by
  unfold classify_axis
  dsimp only
  split_ifs with h1 h2
  · exfalso
    have := le_abs_self (v - NEUTRAL)
    linarith
  · rfl
  · exfalso
    push_neg at h2
    linarith

lemma classify_axis_neg (v deadband : Int) (pos neg : String)
    (h : deadband < NEUTRAL - v) (hdb : 0 ≤ deadband) :
    classify_axis v NEUTRAL deadband pos neg = some neg := by
  unfold classify_axis
  dsimp only
  split_ifs with h1 h2
  · exfalso
    have h3 : NEUTRAL - v ≤ |NEUTRAL - v| := le_abs_self (NEUTRAL - v)
    rw [abs_sub_comm] at h3
    linarith
  · exfalso
    linarith
  · rfl

/-- C4: the labels emitted for a frame are ordered command first, then the
axes in the fixed order pitch, roll, throttle, yaw (each contributing its
label only when it fires), then headless last; the command and headless
blocks each contribute at most one label. -/
theorem C4_emission_order (f : RCFrame) (d : Int) :
    (cmdEvents f.cmd).length ≤ 1 ∧ (headlessEvents f.headless).length ≤ 1 ∧
    infer_event f d =
      cmdEvents f.cmd
      ++ (classify_axis f.pitch NEUTRAL d "forward" "back").toList
      ++ (classify_axis f.roll NEUTRAL d "right" "left").toList
      ++ (classify_axis f.throttle NEUTRAL d "up" "down").toList
      ++ (classify_axis f.yaw NEUTRAL d "yaw_right" "yaw_left").toList
      ++ headlessEvents f.headless := by
  refine ⟨?_, ?_, ?_⟩
  · rw [cmdEvents_eq]
    split_ifs <;> simp
  · rw [headlessEvents_eq]
    split_ifs <;> simp
  · show cmdEvents f.cmd ++ axisEvents f d ++ headlessEvents f.headless = _
    unfold axisEvents
    dsimp only
    rw [filterMap_id_four]
    simp [List.append_assoc]

/-- C6: the emitted list decomposes exactly into the command block followed by
the axis and headless blocks, and the command block is empty when the command
byte is zero, the fixed name for the recognized codes 0x01..0x04, and the
generic `cmd_0xNN` label for every other non-zero byte — so a zero command
byte emits no command label at all. -/
theorem C6_command_emission (f : RCFrame) (d : Int) :
    infer_event f d =
      (if f.cmd = 0 then []
       else if f.cmd = 1 then ["takeoff"]
       else if f.cmd = 2 then ["emergency_stop"]
       else if f.cmd = 3 then ["land"]
       else if f.cmd = 4 then ["calibrate_gyro"]
       else ["cmd_0x" ++ hex2 f.cmd])
      ++ axisEvents f d ++ headlessEvents f.headless := by
  have h1 : infer_event f d =
      cmdEvents f.cmd ++ axisEvents f d ++ headlessEvents f.headless := rfl
  rw [h1, cmdEvents_eq]

/-- C1 counterexample: a decodable frame whose headless byte is 0x00 produces
no label at all — in particular no `headless_0x00` label — refuting the claim
that every frame yields at least one headless emission. -/
theorem C1_counterexample :
    parse_rc_frame 0
        [0x66, 0, 128, 128, 128, 128, 0, 0, 0, 0, 0, 0, 0, 0, 0, 0, 0, 0, 0, 0x99] =
      some ⟨0, 128, 128, 128, 128, 0, 0,
        [0x66, 0, 128, 128, 128, 128, 0, 0, 0, 0, 0, 0, 0, 0, 0, 0, 0, 0, 0, 0x99]⟩ ∧
    infer_event
      ⟨0, 128, 128, 128, 128, 0, 0,
        [0x66, 0, 128, 128, 128, 128, 0, 0, 0, 0, 0, 0, 0, 0, 0, 0, 0, 0, 0, 0x99]⟩ 12 = [] := by
  constructor
  · decide
  · decide

/-- C1 amended: the emitted list decomposes exactly into the command and axis
blocks followed by the headless block, and the headless block is exactly
`headless_on` when the byte is 0x03, `headless_off` when 0x02, the generic
`headless_0xNN` label when the byte is outside {0x00, 0x02, 0x03}, and the
empty list when the byte is 0x00 — so every frame with headless 0x00
produces zero headless emissions, and no frame produces more than one. -/
theorem C1_headless_emission (f : RCFrame) (d : Int) :
    infer_event f d =
      cmdEvents f.cmd ++ axisEvents f d ++
      (if f.headless = 0x03 then ["headless_on"]
       else if f.headless = 0x02 then ["headless_off"]
       else if f.headless = 0x00 then []
       else ["headless_0x" ++ hex2 f.headless]) := by
  have h1 : infer_event f d =
      cmdEvents f.cmd ++ axisEvents f d ++ headlessEvents f.headless := rfl
  rw [h1, headlessEvents_eq]

/-- C5: an axis value within the deadband of neutral 128 emits nothing, a
value above it emits the positive label, below it the negative label; and for
any displacement d with deadband < d ≤ 127 the values 128 + d and 128 - d
emit opposite labels of the pair, for all four axis label pairs. -/
theorem C5_axis_deadband_opposites (v d deadband : Int) (pos neg : String)
    (hv0 : 0 ≤ v) (hv : v ≤ 255) (hdb : 0 ≤ deadband) (hd1 : deadband < d)
    (hd2 : d ≤ 127) :
    (|v - 128| ≤ deadband → classify_axis v NEUTRAL deadband pos neg = none) ∧
    (deadband < v - 128 → classify_axis v NEUTRAL deadband pos neg = some pos) ∧
    (deadband < 128 - v → classify_axis v NEUTRAL deadband pos neg = some neg) ∧
    classify_axis (128 + d) NEUTRAL deadband "forward" "back" = some "forward" ∧
    classify_axis (128 - d) NEUTRAL deadband "forward" "back" = some "back" ∧
    classify_axis (128 + d) NEUTRAL deadband "right" "left" = some "right" ∧
    classify_axis (128 - d) NEUTRAL deadband "right" "left" = some "left" ∧
    classify_axis (128 + d) NEUTRAL deadband "up" "down" = some "up" ∧
    classify_axis (128 - d) NEUTRAL deadband "up" "down" = some "down" ∧
    classify_axis (128 + d) NEUTRAL deadband "yaw_right" "yaw_left" = some "yaw_right" ∧
    classify_axis (128 - d) NEUTRAL deadband "yaw_right" "yaw_left" = some "yaw_left" := by
  have hp : deadband < 128 + d - NEUTRAL := by rw [hNEUTRAL]; omega
  have hn : deadband < NEUTRAL - (128 - d) := by rw [hNEUTRAL]; omega
  refine ⟨?_, ?_, ?_, ?_, ?_, ?_, ?_, ?_, ?_, ?_, ?_⟩
  · intro h
    exact classify_axis_none v deadband pos neg (by rw [hNEUTRAL]; exact h)
  · intro h
    exact classify_axis_pos v deadband pos neg (by rw [hNEUTRAL]; exact h) hdb
  · intro h
    exact classify_axis_neg v deadband pos neg (by rw [hNEUTRAL]; omega) hdb
  · exact classify_axis_pos _ _ _ _ hp hdb
  · exact classify_axis_neg _ _ _ _ hn hdb
  · exact classify_axis_pos _ _ _ _ hp hdb
  · exact classify_axis_neg _ _ _ _ hn hdb
  · exact classify_axis_pos _ _ _ _ hp hdb
  · exact classify_axis_neg _ _ _ _ hn hdb
  · exact classify_axis_pos _ _ _ _ hp hdb
  · exact classify_axis_neg _ _ _ _ hn hdb

/-- Witness for C5 at concrete values: deadband 12, displacement 13. -/
theorem C5_axis_deadband_opposites_witness :
    classify_axis (128 + 13) NEUTRAL 12 "forward" "back" = some "forward" := by
  have h := C5_axis_deadband_opposites 141 13 12 "p" "n"
    (by norm_num) (by norm_num) (by norm_num) (by norm_num) (by norm_num)
  exact h.2.2.2.1

/-! ### Helper lemmas about the debounce loop -/

lemma debounceStep_counts (w : ℚ) (st : DState) (ts : ℚ) (label : String)
    (h : dictGet? st.2 label = none ∨
         ∃ p, dictGet? st.2 label = some p ∧ ts - p ≥ w) :
    debounceStep w st (ts, label) =
      (dictSet st.1 label ((dictGet? st.1 label).getD 0 + 1),
       dictSet st.2 label ts) := by
  unfold debounceStep
  dsimp only
  rcases h with h | ⟨p, hp, hge⟩
  · rw [h]
    rfl
  · rw [hp]
    simp [hge]

lemma debounceStep_skip (w : ℚ) (st : DState) (ts : ℚ) (label : String) (p : ℚ)
    (hp : dictGet? st.2 label = some p) (hlt : ts - p < w) :
    debounceStep w st (ts, label) = st := by
  unfold debounceStep
  dsimp only
  rw [hp]
  simp [not_le.mpr hlt]

lemma dictGet?_dictSet_same (d : List (String × α)) (k : String) (v : α) :
    dictGet? (dictSet d k v) k = some v := by
  induction d with
  | nil => simp [dictSet, dictGet?]
  | cons p rest ih =>
    by_cases h : p.1 = k
    · simp [dictSet, dictGet?, h]
    · simp [dictSet, dictGet?, h, ih]

lemma dictGet?_dictSet_ne (d : List (String × α)) (k q : String) (v : α)
    (h : q ≠ k) :
    dictGet? (dictSet d k v) q = dictGet? d q := by
  have hk : ¬ k = q := fun hh => h hh.symm
  induction d with
  | nil => simp [dictSet, dictGet?, hk]
  | cons p rest ih =>
    by_cases hp : p.1 = k
    · simp [dictSet, dictGet?, hp, hk]
    · by_cases hq : p.1 = q <;> simp [dictSet, dictGet?, hp, hq, ih, h]

lemma debounceStep_get_ne (w : ℚ) (st : DState) (ev : ℚ × String) (L : String)
    (h : ev.2 ≠ L) :
    dictGet? (debounceStep w st ev).1 L = dictGet? st.1 L ∧
    dictGet? (debounceStep w st ev).2 L = dictGet? st.2 L := by
  unfold debounceStep
  dsimp only
  split
  · exact ⟨dictGet?_dictSet_ne _ _ _ _ (Ne.symm h), dictGet?_dictSet_ne _ _ _ _ (Ne.symm h)⟩
  · exact ⟨rfl, rfl⟩

lemma debounceStep_get_same (w : ℚ) (st₁ st₂ : DState) (ts : ℚ) (L : String)
    (h1 : dictGet? st₁.1 L = dictGet? st₂.1 L)
    (h2 : dictGet? st₁.2 L = dictGet? st₂.2 L) :
    dictGet? (debounceStep w st₁ (ts, L)).1 L =
      dictGet? (debounceStep w st₂ (ts, L)).1 L ∧
    dictGet? (debounceStep w st₁ (ts, L)).2 L =
      dictGet? (debounceStep w st₂ (ts, L)).2 L := by
  rcases hp : dictGet? st₂.2 L with _ | p
  · rw [debounceStep_counts w st₁ ts L (Or.inl (h2.trans hp)),
        debounceStep_counts w st₂ ts L (Or.inl hp)]
    dsimp only
    rw [dictGet?_dictSet_same, dictGet?_dictSet_same,
        dictGet?_dictSet_same, dictGet?_dictSet_same, h1]
    exact ⟨rfl, rfl⟩
  · by_cases hge : ts - p ≥ w
    · rw [debounceStep_counts w st₁ ts L (Or.inr ⟨p, h2.trans hp, hge⟩),
          debounceStep_counts w st₂ ts L (Or.inr ⟨p, hp, hge⟩)]
      dsimp only
      rw [dictGet?_dictSet_same, dictGet?_dictSet_same,
          dictGet?_dictSet_same, dictGet?_dictSet_same, h1]
      exact ⟨rfl, rfl⟩
    · rw [debounceStep_skip w st₁ ts L p (h2.trans hp) (lt_of_not_ge hge),
          debounceStep_skip w st₂ ts L p hp (lt_of_not_ge hge)]
      exact ⟨h1, h2⟩

lemma debounce_filter_invariant (w : ℚ) (L : String) :
    ∀ (evs : List (ℚ × String)) (st₁ st₂ : DState),
      dictGet? st₁.1 L = dictGet? st₂.1 L →
      dictGet? st₁.2 L = dictGet? st₂.2 L →
      dictGet? (evs.foldl (debounceStep w) st₁).1 L =
        dictGet? ((evs.filter (fun e => e.2 == L)).foldl (debounceStep w) st₂).1 L ∧
      dictGet? (evs.foldl (debounceStep w) st₁).2 L =
        dictGet? ((evs.filter (fun e => e.2 == L)).foldl (debounceStep w) st₂).2 L := by
  intro evs
  induction evs with
  | nil => exact fun st₁ st₂ h1 h2 => ⟨h1, h2⟩
  | cons ev rest ih =>
    intro st₁ st₂ h1 h2
    by_cases hL : ev.2 = L
    · obtain ⟨ts, lab⟩ := ev
      simp only at hL
      subst hL
      rw [List.filter_cons_of_pos (by simp)]
      simp only [List.foldl_cons]
      have hstep := debounceStep_get_same w st₁ st₂ ts lab h1 h2
      exact ih _ _ hstep.1 hstep.2
    · rw [List.filter_cons_of_neg (by simp [hL])]
      simp only [List.foldl_cons]
      have hstep := debounceStep_get_ne w st₁ ev L hL
      exact ih _ _ (hstep.1.trans h1) (hstep.2.trans h2)

/-- C7: an event is counted (count incremented and its time recorded) exactly
when its label is unseen or the elapsed time since the label's last recorded
time reaches the window (the boundary counts); otherwise the event changes
nothing. Two takeoffs 0.3 s apart with a 0.6 s window count once; 0.7 s
apart they count twice. -/
theorem C7_debounce_counting (w : ℚ) :
    (∀ (evs : List (ℚ × String)) (ts : ℚ) (label : String),
      (dictGet? (debounceRun evs w).2 label = none ∨
        ∃ p, dictGet? (debounceRun evs w).2 label = some p ∧ ts - p ≥ w) →
      debounceRun (evs ++ [(ts, label)]) w =
        (dictSet (debounceRun evs w).1 label
            ((dictGet? (debounceRun evs w).1 label).getD 0 + 1),
         dictSet (debounceRun evs w).2 label ts)) ∧
    (∀ (evs : List (ℚ × String)) (ts : ℚ) (label : String) (p : ℚ),
      dictGet? (debounceRun evs w).2 label = some p → ts - p < w →
      debounceRun (evs ++ [(ts, label)]) w = debounceRun evs w) ∧
    dictGet? (debounce_and_count [(0, "takeoff"), (3/10, "takeoff")] (6/10))
      "takeoff" = some 1 ∧
    dictGet? (debounce_and_count [(0, "takeoff"), (7/10, "takeoff")] (6/10))
      "takeoff" = some 2 := by
  have hsnoc : ∀ (evs : List (ℚ × String)) (ts : ℚ) (label : String),
      debounceRun (evs ++ [(ts, label)]) w =
        debounceStep w (debounceRun evs w) (ts, label) := by
    intro evs ts label
    unfold debounceRun
    rw [List.foldl_append]
    rfl
  refine ⟨?_, ?_,
    by norm_num [debounce_and_count, debounceRun, debounceStep, dictGet?, dictSet],
    by norm_num [debounce_and_count, debounceRun, debounceStep, dictGet?, dictSet]⟩
  · intro evs ts label h
    rw [hsnoc, debounceStep_counts w _ ts label h]
  · intro evs ts label p hp hlt
    rw [hsnoc, debounceStep_skip w _ ts label p hp hlt]

/-- Witness for C7's conditional parts at a concrete run. -/
theorem C7_debounce_counting_witness :
    dictGet? (debounce_and_count [(0, "takeoff"), (3/10, "takeoff")] (6/10))
      "takeoff" = some 1 :=
  (C7_debounce_counting (6/10)).2.2.1

/-- C8: a label's final count depends only on the subsequence of events
carrying that label — running the loop on the filtered stream yields the same
count — and in the interleaved example takeoff and land each count once. -/
theorem C8_label_independence (evs : List (ℚ × String)) (w : ℚ) (L : String) :
    dictGet? (debounce_and_count evs w) L =
      dictGet? (debounce_and_count (evs.filter (fun e => e.2 == L)) w) L ∧
    dictGet? (debounce_and_count
        [(0, "takeoff"), (1/10, "land"), (2/10, "takeoff")] (6/10))
      "takeoff" = some 1 ∧
    dictGet? (debounce_and_count
        [(0, "takeoff"), (1/10, "land"), (2/10, "takeoff")] (6/10))
      "land" = some 1 := by
  refine ⟨?_, ?_, ?_⟩
  · exact (debounce_filter_invariant w L evs ([], []) ([], []) rfl rfl).1
  · norm_num [debounce_and_count, debounceRun, debounceStep, dictGet?, dictSet]
  · norm_num [debounce_and_count, debounceRun, debounceStep, dictGet?, dictSet]
    decide

/-! ### Helper lemmas about the report stage -/

lemma dictGet?_isSome_iff (d : List (String × α)) (k : String) :
    (dictGet? d k).isSome = true ↔ k ∈ d.map Prod.fst := by
  induction d with
  | nil => simp [dictGet?]
  | cons p rest ih =>
    by_cases h : p.1 = k
    · simp [dictGet?, h]
    · have h2 : ¬ k = p.1 := fun hh => h hh.symm
      simp [dictGet?, h, h2, ih]

lemma filterMap_get_eq (counts : List (String × Nat)) (l : List String) :
    l.filterMap (fun k => (dictGet? counts k).map (fun v => (k, v))) =
      (l.filter (fun k => decide (k ∈ counts.map Prod.fst))).map
        (fun k => (k, (dictGet? counts k).getD 0)) := by
  induction l with
  | nil => rfl
  | cons a l ih =>
    rcases ha : dictGet? counts a with _ | v
    · have hmem : ¬ a ∈ counts.map Prod.fst := by
        rw [← dictGet?_isSome_iff]
        simp [ha]
      simp [List.filterMap_cons, List.filter_cons, ha, hmem, ih]
    · have hmem : a ∈ counts.map Prod.fst := by
        rw [← dictGet?_isSome_iff]
        simp [ha]
      simp [List.filterMap_cons, List.filter_cons, ha, hmem, ih]

/-- C9: the report lists first the preferred labels present in the table in
the fixed preferred order, then the remaining present labels sorted; each
listed label carries its table count and appears exactly once, and no absent
label is listed. -/
theorem C9_report_order (counts : List (String × Nat))
    (hnd : (counts.map Prod.fst).Nodup) :
    reportLines counts =
      ((preferred_order.filter (fun k => decide (k ∈ counts.map Prod.fst)))
        ++ List.insertionSort (· ≤ ·)
            ((counts.map Prod.fst).filter (fun k => decide (¬ k ∈ preferred_order)))).map
        (fun k => (k, (dictGet? counts k).getD 0)) ∧
    (∀ k v, (k, v) ∈ reportLines counts → dictGet? counts k = some v) ∧
    (∀ k, k ∈ (reportLines counts).map Prod.fst ↔ k ∈ counts.map Prod.fst) ∧
    ((reportLines counts).map Prod.fst).Nodup := by
  have hfilter_eq :
      (List.insertionSort (· ≤ ·) (counts.map Prod.fst)).filter
          (fun k => decide (¬ k ∈ preferred_order.filter
            (fun k2 => (dictGet? counts k2).isSome))) =
      List.insertionSort (· ≤ ·)
        ((counts.map Prod.fst).filter (fun k => decide (¬ k ∈ preferred_order))) := by
    have hcongr :
        (List.insertionSort (· ≤ ·) (counts.map Prod.fst)).filter
            (fun k => decide (¬ k ∈ preferred_order.filter
              (fun k2 => (dictGet? counts k2).isSome))) =
        (List.insertionSort (· ≤ ·) (counts.map Prod.fst)).filter
            (fun k => decide (¬ k ∈ preferred_order)) := by
      apply List.filter_congr
      intro x hx
      have hxk : x ∈ counts.map Prod.fst := (List.mem_insertionSort _).mp hx
      have hsome : (dictGet? counts x).isSome = true :=
        (dictGet?_isSome_iff counts x).mpr hxk
      have hiff : x ∈ preferred_order.filter (fun k2 => (dictGet? counts k2).isSome)
          ↔ x ∈ preferred_order := by
        simp [List.mem_filter, hsome]
      simp [hiff]
    rw [hcongr]
    exact List.eq_of_perm_of_sorted
      (((List.perm_insertionSort _ _).filter _).trans
        (List.perm_insertionSort _ _).symm)
      ((List.sorted_insertionSort _ _).filter _)
      (List.sorted_insertionSort _ _)
  have hEq : reportLines counts =
      ((preferred_order.filter (fun k => decide (k ∈ counts.map Prod.fst)))
        ++ List.insertionSort (· ≤ ·)
            ((counts.map Prod.fst).filter (fun k => decide (¬ k ∈ preferred_order)))).map
        (fun k => (k, (dictGet? counts k).getD 0)) := by
    unfold reportLines
    dsimp only
    rw [filterMap_get_eq counts preferred_order, hfilter_eq, List.map_append]
  have hfst : (reportLines counts).map Prod.fst =
      (preferred_order.filter (fun k => decide (k ∈ counts.map Prod.fst)))
        ++ List.insertionSort (· ≤ ·)
            ((counts.map Prod.fst).filter (fun k => decide (¬ k ∈ preferred_order))) := by
    rw [hEq, List.map_map]
    have hid : (Prod.fst ∘ fun k => (k, (dictGet? counts k).getD 0)) = id := rfl
    rw [hid, List.map_id]
  refine ⟨hEq, ?_, ?_, ?_⟩
  · intro k v hkv
    rw [hEq, List.mem_map] at hkv
    obtain ⟨a, ha, hfa⟩ := hkv
    have hak : a ∈ counts.map Prod.fst := by
      rcases List.mem_append.mp ha with h | h
      · exact of_decide_eq_true (List.mem_filter.mp h).2
      · exact (List.mem_filter.mp ((List.mem_insertionSort _).mp h)).1
    obtain ⟨v2, hv2⟩ := Option.isSome_iff_exists.mp
      ((dictGet?_isSome_iff counts a).mpr hak)
    obtain ⟨hk, hv⟩ := Prod.mk.injEq .. |>.mp hfa
    subst hk
    rw [hv2] at hv ⊢
    rw [Option.getD_some] at hv
    rw [hv]
  · intro k
    rw [hfst]
    constructor
    · intro hk
      rcases List.mem_append.mp hk with h | h
      · exact of_decide_eq_true (List.mem_filter.mp h).2
      · exact (List.mem_filter.mp ((List.mem_insertionSort _).mp h)).1
    · intro hk
      rw [List.mem_append]
      by_cases hp : k ∈ preferred_order
      · exact Or.inl (List.mem_filter.mpr ⟨hp, decide_eq_true hk⟩)
      · refine Or.inr ((List.mem_insertionSort _).mpr ?_)
        exact List.mem_filter.mpr ⟨hk, decide_eq_true hp⟩
  · rw [hfst]
    have hpref : preferred_order.Nodup := by decide
    apply List.Nodup.append
    · exact List.Nodup.filter _ hpref
    · exact ((List.perm_insertionSort _ _).nodup_iff).mpr (List.Nodup.filter _ hnd)
    · intro a haA haB
      have h1 : a ∈ preferred_order := (List.mem_filter.mp haA).1
      have h2 : ¬ a ∈ preferred_order :=
        of_decide_eq_true (List.mem_filter.mp ((List.mem_insertionSort _).mp haB)).2
      exact h2 h1

/-- Witness for C9 at a concrete two-entry table. -/
theorem C9_report_order_witness :
    reportLines [("zzz", 2), ("takeoff", 1)] =
      ((preferred_order.filter (fun k =>
          decide (k ∈ ([("zzz", 2), ("takeoff", 1)] : List (String × Nat)).map Prod.fst)))
        ++ List.insertionSort (· ≤ ·)
            ((([("zzz", 2), ("takeoff", 1)] : List (String × Nat)).map Prod.fst).filter
              (fun k => decide (¬ k ∈ preferred_order)))).map
        (fun k => (k, (dictGet? [("zzz", 2), ("takeoff", 1)] k).getD 0)) :=
  (C9_report_order [("zzz", 2), ("takeoff", 1)] (by decide)).1
